import Mathlib

/-!
Verification of the donut-utils installer (`src/main.go`) against its
natural-language specification.

The program is sequential glue: it reads a repository list, fetches
metadata over HTTP, selects release assets matching the runtime OS and
architecture, optionally downloads them, and appends a PATH export line
to a shell profile.  We shallowly embed the program: strings are Lean
`String`s, each fallible external operation (file read, HTTP request,
JSON decode, file create/copy/chmod, profile open/write) is an outcome
supplied by an `Env` record, and `mainRun` mirrors `main`'s control
flow as a pure function from that environment to an observable result.
-/

namespace DonutUtils

/-- Models Go `unicode.IsSpace`: the Unicode White_Space property
(U+0009–U+000D, space, NEL, NBSP, and the Unicode space separators). -/
def goIsSpace (c : Char) : Bool :=
  let n := c.toNat
  (9 ≤ n && n ≤ 13) || n == 32 || n == 133 || n == 160 || n == 5760 ||
  (8192 ≤ n && n ≤ 8202) || n == 8232 || n == 8233 || n == 8239 || n == 8287 || n == 12288

/-- Models Go `strings.TrimSpace`: drop leading and trailing white space. -/
def goTrimSpace (s : String) : String :=
  ⟨((s.data.dropWhile goIsSpace).reverse.dropWhile goIsSpace).reverse⟩

/-- Models Go `unicode.ToLower` on the ASCII range (`A`–`Z` map to
`a`–`z`, everything else unchanged).  The non-ASCII case mappings of Go
differ from this only at characters whose lowercase image is itself
non-ASCII, so they cannot influence a comparison against an ASCII
string such as `"yes"`. -/
def goLowerChar (c : Char) : Char :=
  if 65 ≤ c.toNat && c.toNat ≤ 90 then Char.ofNat (c.toNat + 32) else c

/-- Models Go `strings.ToLower` (see `goLowerChar`). -/
def goToLower (s : String) : String :=
  ⟨s.data.map goLowerChar⟩

/-- Index of the first position of `l` where `sub` is a prefix of the
remaining suffix (`none` when there is no such position).  This is the
character-level content of Go `strings.Index`; `"-v"` and the OS/arch
identifiers are ASCII, so byte positions and character positions select
the same occurrence. -/
def strIndexAux (sub : List Char) : List Char → Option Nat
  | [] => if sub = [] then some 0 else none
  | c :: cs =>
    if sub.isPrefixOf (c :: cs) then some 0
    else (strIndexAux sub cs).map (· + 1)

/-- Models Go `strings.Index s sub`: index of the first occurrence of
`sub` in `s`, `-1` when absent. -/
def goIndex (s sub : String) : Int :=
  match strIndexAux sub.data s.data with
  | some i => (i : Int)
  | none => -1

/-- Models Go `strings.Contains s sub`, which is `Index(s, sub) >= 0`. -/
def goContains (s sub : String) : Bool :=
  decide (0 ≤ goIndex s sub)

/-- Models Go `strings.Split` for a one-character separator. -/
def splitOnChar (sep : Char) : List Char → List (List Char)
  | [] => [[]]
  | c :: cs =>
    if c = sep then [] :: splitOnChar sep cs
    else
      match splitOnChar sep cs with
      | [] => [[c]]
      | h :: t => (c :: h) :: t

/-- Models Go `filepath.Base` with the `/` separator (the program joins
and downloads URL-style paths): empty path gives `"."`, trailing
slashes are stripped, the element after the last slash is returned, and
an all-slash path gives `"/"`. -/
def goBase (path : String) : String :=
  if path = "" then "."
  else
    let p1 := (path.data.reverse.dropWhile (fun c => c = '/')).reverse
    let p2 := (p1.reverse.takeWhile (fun c => c ≠ '/')).reverse
    if p2 = [] then "/" else ⟨p2⟩

/-- A release asset: `main.go` lines 114–119 (`name`,
`browser_download_url`). -/
structure Asset where
  name : String
  browserDownloadUrl : String
deriving DecidableEq

/-- The selection predicate of `main.go` line 128:
`strings.Contains(asset.Name, runtime.GOOS) &&
strings.Contains(asset.Name, runtime.GOARCH)`. -/
def assetMatches (goos goarch : String) (a : Asset) : Bool :=
  goContains a.name goos && goContains a.name goarch

/-- The asset loop of `main.go` lines 127–136: scan in order, keep the
first asset matching both identifiers, `break` afterwards. -/
def selectAsset (goos goarch : String) : List Asset → Option Asset
  | [] => none
  | a :: rest =>
    if assetMatches goos goarch a then some a
    else selectAsset goos goarch rest

/-- `appInfo` of `main.go` lines 57–61. -/
structure AppInfo where
  name : String
  description : String
  downloadURL : String
deriving DecidableEq

/-- Outcome of one metadata request in the fetch loop, separating the
failure modes the code distinguishes: `http.Get` error (lines 73/98),
non-200 status (lines 77/102), `io.ReadAll` error (lines 83/109) and
`json.Unmarshal` error (lines 91/122), or the decoded value. -/
inductive StepOutcome (α : Type) where
  | httpError (msg : String)
  | badStatus (code : Nat)
  | readError (msg : String)
  | decodeError (msg : String)
  | ok (val : α)
deriving DecidableEq

/-- Whether the request outcome is any of the four failure modes. -/
def StepOutcome.failed : StepOutcome α → Bool
  | .ok _ => false
  | _ => true

/-- Outcome of an `http.Get` in `downloadAndStore`: either a transport
error or a response carrying a status code and a body. -/
inductive HttpResult where
  | transportError (msg : String)
  | response (status : Nat) (body : String)
deriving DecidableEq

/-- Observable result of one `downloadAndStore` call (`main.go` lines
170–206): which early return was taken, or which file was written with
which contents. -/
inductive DlResult where
  | failedDownload
  | invalidFilename (filename : String)
  | failedCreate (appName : String)
  | failedCopy (appName : String)
  | failedChmod (appName : String) (body : String)
  | stored (appName : String) (body : String)
deriving DecidableEq

/-- Whether a `downloadAndStore` call created a file on disk
(`os.Create` at line 186 succeeded). -/
def fileWritten : DlResult → Bool
  | .failedCopy _ => true
  | .failedChmod _ _ => true
  | .stored _ _ => true
  | _ => false

/-- Result of the PATH-registration step: the Windows manual branch of
`main` (lines 158–161), or one of the outcomes of `addToPath` (lines
208–246). -/
inductive PathResult where
  | manualWindows (dir : String)
  | unsupportedShell (dir : String)
  | failedUser
  | failedOpen (shellrc : String)
  | failedWrite (shellrc : String)
  | appended (shellrc : String) (newContents : String)
deriving DecidableEq

/-- The environment: outcomes of every external operation the program
performs, plus the runtime identifiers.  `main` and its helpers are
pure functions of this record. -/
structure Env where
  readReposList : Except String String
  currentUser : Except String String
  mkdirOk : Bool
  goos : String
  goarch : String
  repoInfo : String → StepOutcome String
  release : String → StepOutcome (List Asset)
  readInput : Except String String
  download : String → HttpResult
  createOk : String → Bool
  copyOk : String → Bool
  chmodOk : String → Bool
  shellEnv : String
  currentUser2 : Except String String
  openProfileOk : Bool
  writeProfileOk : Bool
  profileContents : String

/-- One iteration of the fetch loop for a trimmed, non-blank reference
(`main.go` lines 70–136): the reference contributes an `appInfo` only
when both requests fully succeed and an asset matches. -/
def fetchApp (env : Env) (repo : String) : Option AppInfo :=
  match env.repoInfo repo with
  | .ok desc =>
    match env.release repo with
    | .ok assets =>
      match selectAsset env.goos env.goarch assets with
      | some a => some ⟨a.name, desc, a.browserDownloadUrl⟩
      | none => none
    | _ => none
  | _ => none

/-- The fetch loop over the split lines (`main.go` lines 64–137): trim
each line, skip blanks, accumulate the successful references. -/
def fetchApps (env : Env) (lines : List String) : List AppInfo :=
  lines.filterMap (fun line =>
    let repo := goTrimSpace line
    if repo = "" then none else fetchApp env repo)

/-- `availableApps` as accumulated by `main` from the repos-list file
contents (`strings.Split(string(data), "\n")` at line 55, then the
fetch loop). -/
def availableApps (env : Env) (data : String) : List AppInfo :=
  fetchApps env ((splitOnChar '\n' data.data).map (fun l => String.mk l))

/-- The part of `downloadAndStore` after `http.Get` succeeded
(`main.go` lines 178–205): derive the filename from the URL's base
name, truncate at `"-v"`, then create, copy and chmod.  The response
status code is not consulted anywhere in this part. -/
def storeBody (env : Env) (url : String) (body : String) : DlResult :=
  let filename := goBase url
  let index := goIndex filename "-v"
  if index = -1 then .invalidFilename filename
  else
    let appName : String := ⟨filename.data.take index.toNat⟩
    if env.createOk appName then
      if env.copyOk appName then
        if env.chmodOk appName then .stored appName body
        else .failedChmod appName body
      else .failedCopy appName
    else .failedCreate appName

/-- `downloadAndStore` (`main.go` lines 170–206).  Only a transport
error from `http.Get` is detected (lines 171–175); the status code of
a received response is ignored. -/
def downloadAndStore (env : Env) (url : String) : DlResult :=
  match env.download url with
  | .transportError _ => .failedDownload
  | .response _ body => storeBody env url body

/-- The download loop of `main` (lines 154–156): every selected
application is attempted, one after the other, unconditionally. -/
def runDownloads (env : Env) (apps : List AppInfo) : List DlResult :=
  apps.map (fun app => downloadAndStore env app.downloadURL)

/-- The name-derivation of `downloadAndStore` in isolation (`main.go`
lines 178–185): `none` when the base name has no `"-v"` marker. -/
def deriveAppName (url : String) : Option String :=
  let filename := goBase url
  let index := goIndex filename "-v"
  if index = -1 then none
  else some ⟨filename.data.take index.toNat⟩

/-- Shell-profile choice of `addToPath` (`main.go` lines 209–220):
`SHELL` containing `"bash"` selects `.bashrc`, else containing `"zsh"`
selects `.zshrc`, else unsupported. -/
def shellProfile (shell : String) : Option String :=
  if goContains shell "bash" then some ".bashrc"
  else if goContains shell "zsh" then some ".zshrc"
  else none

/-- The line appended by `addToPath` (`main.go` line 237). -/
def exportLine (dir : String) : String :=
  "\nexport PATH=$PATH:" ++ dir

/-- `addToPath` (`main.go` lines 208–246): pick the profile from
`SHELL` (early return when unsupported), resolve the current user,
open the profile for append and write the export line. -/
def addToPath (env : Env) (dir : String) : PathResult :=
  match shellProfile env.shellEnv with
  | none => .unsupportedShell dir
  | some shellrc =>
    match env.currentUser2 with
    | .error _ => .failedUser
    | .ok _ =>
      if env.openProfileOk then
        if env.writeProfileOk then
          .appended shellrc (env.profileContents ++ exportLine dir)
        else .failedWrite shellrc
      else .failedOpen shellrc

/-- Two consecutive runs of the PATH-registration step: the second run
sees the profile contents left by the first. -/
def addToPathTwice (env : Env) (dir : String) : PathResult :=
  match addToPath env dir with
  | .appended _ c => addToPath { env with profileContents := c } dir
  | r => r

/-- The final branch of `main` (lines 158–168): manual instructions on
Windows, otherwise `addToPath` on the download directory. -/
def mainPathStep (env : Env) (home : String) : PathResult :=
  if env.goos = "windows" then .manualWindows (home ++ "/.donut-utils")
  else addToPath env (home ++ "/.donut-utils")

/-- Everything `main` has done by the time it returns normally. -/
structure RunEnd where
  apps : List AppInfo
  confirmed : Bool
  downloads : List DlResult
  pathStep : PathResult
deriving DecidableEq

/-- Result of a whole run of `main`: one of the four early fatal
returns (lines 36–53 and 146–150), or normal completion. -/
inductive RunResult where
  | fatalRepoList
  | fatalUser
  | fatalMkdir
  | fatalInput
  | completed (r : RunEnd)
deriving DecidableEq

/-- Whether the run aborted through one of the early returns. -/
def RunResult.isFatal : RunResult → Bool
  | .completed _ => false
  | _ => true

/-- Whether an `error`-or-value outcome is the error case. -/
def isErr : Except String α → Bool
  | .error _ => true
  | .ok _ => false

/-- `main` (`main.go` lines 23–169) as a function of the environment:
read the repos list, resolve the user, create the download directory
(each failure aborting), run the fetch loop, read the confirmation
line (failure aborting), download on `"yes"`, then the PATH step. -/
def mainRun (env : Env) : RunResult :=
  match env.readReposList with
  | .error _ => .fatalRepoList
  | .ok data =>
    match env.currentUser with
    | .error _ => .fatalUser
    | .ok home =>
      if env.mkdirOk then
        let apps := availableApps env data
        match env.readInput with
        | .error _ => .fatalInput
        | .ok response =>
          let confirmed := decide (goToLower (goTrimSpace response) = "yes")
          let downloads := if confirmed then runDownloads env apps else []
          .completed ⟨apps, confirmed, downloads, mainPathStep env home⟩
      else .fatalMkdir

/-- Resource events of the fetch loop: acquisition and release of HTTP
response bodies, numbered in order of acquisition. -/
inductive Ev where
  | openBody (id : Nat)
  | closeBody (id : Nat)
deriving DecidableEq

/-- State threaded through the fetch loop's resource trace: the next
body number, the events emitted so far, and the stack of `defer
resp.Body.Close()` calls registered so far (most recent first).  Go
runs deferred calls when the surrounding function returns, not at the
end of a loop iteration. -/
structure LoopState where
  nextId : Nat
  events : List Ev
  defers : List Nat
deriving DecidableEq

/-- Resource effect of one metadata request (`main.go` lines 72–94 and
97–125): a transport error acquires no body; a non-200 status acquires
a body and `continue`s before the `defer` statement is reached, so no
close is ever registered for it; a read or decode error occurs after
the `defer`, so its close is pending until `main` returns.  The `Bool`
says whether the iteration proceeds past this request. -/
def reqTrace (o : StepOutcome α) (st : LoopState) : LoopState × Bool :=
  match o with
  | .httpError _ => (st, false)
  | .badStatus _ =>
    ({ st with nextId := st.nextId + 1, events := st.events ++ [Ev.openBody st.nextId] }, false)
  | .readError _ =>
    ({ st with
        nextId := st.nextId + 1
        events := st.events ++ [Ev.openBody st.nextId]
        defers := st.nextId :: st.defers }, false)
  | .decodeError _ =>
    ({ st with
        nextId := st.nextId + 1
        events := st.events ++ [Ev.openBody st.nextId]
        defers := st.nextId :: st.defers }, false)
  | .ok _ =>
    ({ st with
        nextId := st.nextId + 1
        events := st.events ++ [Ev.openBody st.nextId]
        defers := st.nextId :: st.defers }, true)

/-- Resource trace of one fetch-loop iteration (`main.go` lines
64–137): blank lines touch nothing; otherwise the repository-info
request and, if it fully succeeded, the latest-release request. -/
def fetchStep (env : Env) (st : LoopState) (line : String) : LoopState :=
  let repo := goTrimSpace line
  if repo = "" then st
  else
    let p := reqTrace (env.repoInfo repo) st
    if p.2 then (reqTrace (env.release repo) p.1).1 else p.1

/-- Resource trace of the whole fetch loop. -/
def fetchLoop (env : Env) (lines : List String) : LoopState :=
  lines.foldl (fetchStep env) ⟨0, [], []⟩

/-- All body events of a run of `main` over the given lines: the events
emitted during the loop followed by the deferred closes, which Go runs
in last-in-first-out order when `main` returns. -/
def mainBodyEvents (env : Env) (lines : List String) : List Ev :=
  let st := fetchLoop env lines
  st.events ++ st.defers.map Ev.closeBody

/-- An environment in which every external operation succeeds in the
simplest way; concrete test environments below override fields. -/
def baseEnv : Env where
  readReposList := .ok ""
  currentUser := .ok "/home/u"
  mkdirOk := true
  goos := "linux"
  goarch := "amd64"
  repoInfo := fun _ => .badStatus 404
  release := fun _ => .badStatus 404
  readInput := .ok "no\n"
  download := fun _ => .transportError "unreachable"
  createOk := fun _ => true
  copyOk := fun _ => true
  chmodOk := fun _ => true
  shellEnv := "/bin/bash"
  currentUser2 := .ok "/home/u"
  openProfileOk := true
  writeProfileOk := true
  profileContents := ""

/-- Matching asset used by the concrete selector tests. -/
def c1a : Asset := ⟨"tool-v1-linux-amd64", "u1"⟩

/-- Non-matching asset (different OS and architecture). -/
def c1n1 : Asset := ⟨"tool-v1-darwin-arm64", "u2"⟩

/-- Non-matching asset (checksum file). -/
def c1n2 : Asset := ⟨"tool-v1.sha256", "u3"⟩

/-- End-to-end environment: one reference whose release has one asset
matching `linux`/`amd64`, download succeeding with body `"bin"`. -/
def envC3 : Env :=
  { baseEnv with
    readReposList := .ok "acme/tool"
    repoInfo := fun r => if r = "acme/tool" then .ok "a tool" else .badStatus 404
    release := fun r =>
      if r = "acme/tool" then .ok [⟨"tool-v2.0.0-linux-amd64", "https://e/tool-v2.0.0-linux-amd64"⟩]
      else .badStatus 404
    readInput := .ok " YES \n"
    download := fun u =>
      if u = "https://e/tool-v2.0.0-linux-amd64" then .response 200 "bin"
      else .transportError "unreachable" }

/-- Environment with two healthy references around one whose
repository-info request returns HTTP 404. -/
def envC4 : Env :=
  { baseEnv with
    readReposList := .ok "good/one\nbad/repo\ngood/two"
    repoInfo := fun r => if r = "bad/repo" then .badStatus 404 else .ok ("desc of " ++ r)
    release := fun r =>
      if r = "good/one" then .ok [⟨"one-v1-linux-amd64", "https://e/one-v1-linux-amd64"⟩]
      else if r = "good/two" then .ok [⟨"two-v1-linux-amd64", "https://e/two-v1-linux-amd64"⟩]
      else .badStatus 404 }

/-- Environment whose download endpoint answers HTTP 404 with an error
page as body. -/
def envC5 : Env :=
  { baseEnv with download := fun _ => .response 404 "Not Found" }

/-- URL used against `envC5`. -/
def c5url : String := "https://e/myapp-v1.0-linux-amd64"

/-- Environment whose download endpoint fails at the transport level. -/
def envC5w : Env :=
  { baseEnv with download := fun _ => .transportError "boom" }

/-- Environment in which everything in `main` succeeds but
`user.Current` inside `addToPath` fails. -/
def envC6 : Env :=
  { baseEnv with currentUser2 := .error "boom" }

/-- The completed run produced by `envC6`. -/
def rC6 : RunEnd := ⟨[], false, [], .failedUser⟩

/-- Bash environment for the PATH-registration tests. -/
def envC7 : Env := { baseEnv with profileContents := "# profile" }

/-- Download directory used by the PATH-registration tests. -/
def c7dir : String := "/home/u/.donut-utils"

/-- Release list with two assets that both match `linux`/`amd64`. -/
def c8assets : List Asset :=
  [⟨"a-linux-amd64", "u1"⟩, ⟨"b-linux-amd64", "u2"⟩]

/-- Environment whose single reference has the ambiguous release
`c8assets`. -/
def envC8 : Env :=
  { baseEnv with
    repoInfo := fun r => if r = "acme/two" then .ok "d" else .badStatus 404
    release := fun r => if r = "acme/two" then .ok c8assets else .badStatus 404 }

/-- Environment for the resource trace: reference `a/r` succeeds on
both requests (with no matching assets), reference `b/r` gets HTTP 404
on the repository-info request. -/
def envC9 : Env :=
  { baseEnv with
    repoInfo := fun r => if r = "a/r" then .ok "d" else .badStatus 404
    release := fun r => if r = "a/r" then .ok [] else .badStatus 404 }

/-- Environment that declines the download prompt with an empty
available-applications list. -/
def envC10 : Env := baseEnv

theorem isPrefixOf_nil_iff (sub : List Char) :
    sub.isPrefixOf ([] : List Char) = true ↔ sub = [] := by
  cases sub <;> simp [List.isPrefixOf]

theorem strIndexAux_empty (l : List Char) : strIndexAux [] l = some 0 := by
  cases l <;> simp [strIndexAux, List.isPrefixOf]

theorem strIndexAux_some (sub : List Char) :
    ∀ (l : List Char) (i : Nat), strIndexAux sub l = some i →
      sub.isPrefixOf (l.drop i) = true ∧
      ∀ j, j < i → sub.isPrefixOf (l.drop j) = false := by
  intro l
  induction l with
  | nil =>
    intro i h
    rw [strIndexAux] at h
    by_cases hsub : sub = []
    · rw [if_pos hsub] at h
      obtain rfl : (0 : Nat) = i := by simpa using h
      exact ⟨by simp [hsub, List.isPrefixOf], fun j hj => absurd hj (Nat.not_lt_zero j)⟩
    · rw [if_neg hsub] at h
      cases h
  | cons c cs ih =>
    intro i h
    cases hp : sub.isPrefixOf (c :: cs) with
    | true =>
      rw [strIndexAux, hp] at h
      obtain rfl : (0 : Nat) = i := by simpa using h
      exact ⟨by simpa using hp, fun j hj => absurd hj (Nat.not_lt_zero j)⟩
    | false =>
      rw [strIndexAux, hp] at h
      simp only [Bool.false_eq_true, if_false, Option.map_eq_some'] at h
      obtain ⟨a, ha, rfl⟩ := h
      obtain ⟨h1, h2⟩ := ih a ha
      refine ⟨by simpa using h1, ?_⟩
      intro j hj
      cases j with
      | zero => simpa using hp
      | succ j' => simpa using h2 j' (by omega)

theorem strIndexAux_none_iff (sub : List Char) (hs : sub ≠ []) :
    ∀ l : List Char, strIndexAux sub l = none ↔
      ∀ j, sub.isPrefixOf (l.drop j) = false := by
  intro l
  induction l with
  | nil =>
    obtain ⟨c, cs, rfl⟩ := List.exists_cons_of_ne_nil hs
    simp [strIndexAux, List.isPrefixOf]
  | cons c cs ih =>
    cases hp : sub.isPrefixOf (c :: cs) with
    | true =>
      rw [strIndexAux, hp]
      simp only [if_true]
      constructor
      · intro h; cases h
      · intro h
        have := h 0
        rw [List.drop_zero, hp] at this
        cases this
    | false =>
      rw [strIndexAux, hp]
      simp only [Bool.false_eq_true, if_false, Option.map_eq_none', ih]
      constructor
      · intro h j
        cases j with
        | zero => simpa using hp
        | succ j' => simpa using h j'
      · intro h j
        simpa using h (j + 1)

theorem goIndex_of_some {s sub : String} {i : Nat}
    (h : strIndexAux sub.data s.data = some i) : goIndex s sub = i := by
  unfold goIndex; rw [h]

theorem goIndex_of_none {s sub : String}
    (h : strIndexAux sub.data s.data = none) : goIndex s sub = -1 := by
  unfold goIndex; rw [h]

theorem goContains_iff_infix (s sub : String) :
    goContains s sub = true ↔ sub.data <:+: s.data := by
  by_cases hsub : sub.data = []
  · have h0 : strIndexAux sub.data s.data = some 0 := by rw [hsub]; exact strIndexAux_empty _
    have : goIndex s sub = 0 := goIndex_of_some h0
    simp [goContains, this, hsub]
  · cases h : strIndexAux sub.data s.data with
    | some i =>
      have hg : goIndex s sub = i := goIndex_of_some h
      simp only [goContains, hg]
      constructor
      · intro _
        obtain ⟨h1, _⟩ := strIndexAux_some sub.data s.data i h
        have hpre : sub.data <+: s.data.drop i := List.isPrefixOf_iff_prefix.mp h1
        exact hpre.isInfix.trans (List.drop_suffix i s.data).isInfix
      · intro _
        simp
    | none =>
      have hg : goIndex s sub = -1 := goIndex_of_none h
      simp only [goContains, hg]
      constructor
      · intro hfalse
        simp at hfalse
      · intro hinf
        obtain ⟨u, v, huv⟩ := hinf
        have hdrop : s.data.drop u.length = sub.data ++ v := by
          rw [← huv, List.append_assoc, List.drop_left]
        have hpre : sub.data.isPrefixOf (s.data.drop u.length) = true := by
          rw [hdrop]
          exact List.isPrefixOf_iff_prefix.mpr (List.prefix_append _ _)
        have := (strIndexAux_none_iff sub.data hsub s.data).mp h u.length
        rw [this] at hpre
        cases hpre

theorem selectAsset_some (gs ga : String) :
    ∀ (l : List Asset) (a : Asset), selectAsset gs ga l = some a →
      assetMatches gs ga a = true ∧
      ∃ l₁ l₂, l = l₁ ++ a :: l₂ ∧ ∀ b ∈ l₁, assetMatches gs ga b = false := by
  intro l
  induction l with
  | nil => intro a h; cases h
  | cons c cs ih =>
    intro a h
    cases hm : assetMatches gs ga c with
    | true =>
      rw [selectAsset, hm] at h
      obtain rfl : c = a := by simpa using h
      exact ⟨hm, [], cs, rfl, by simp⟩
    | false =>
      rw [selectAsset, hm] at h
      simp only [Bool.false_eq_true, if_false] at h
      obtain ⟨hma, l₁, l₂, rfl, hall⟩ := ih a h
      refine ⟨hma, c :: l₁, l₂, rfl, ?_⟩
      intro b hb
      rcases List.mem_cons.mp hb with rfl | hb'
      · exact hm
      · exact hall b hb'

theorem selectAsset_none_iff (gs ga : String) :
    ∀ l : List Asset, selectAsset gs ga l = none ↔
      ∀ a ∈ l, assetMatches gs ga a = false := by
  intro l
  induction l with
  | nil => simp [selectAsset]
  | cons c cs ih =>
    cases hm : assetMatches gs ga c with
    | true => simp [selectAsset, hm]
    | false => simp [selectAsset, hm, ih]

theorem selectAsset_eq_head_filter (gs ga : String) :
    ∀ l : List Asset, selectAsset gs ga l = (l.filter (assetMatches gs ga)).head? := by
  intro l
  induction l with
  | nil => rfl
  | cons c cs ih =>
    cases hm : assetMatches gs ga c with
    | true => simp [selectAsset, hm, List.filter_cons]
    | false => simp [selectAsset, hm, List.filter_cons, ih]

/-- Claim C1: for every repository reference the asset selector scans
the release's asset list in order and selects the first asset whose
name contains, as a case-sensitive substring, both the runtime OS
identifier and the runtime architecture identifier; scanning stops at
that first match, a reference with no matching asset contributes
nothing to the available-applications list, and the selected asset is
unchanged under reordering of the non-matching assets (any reordering
that leaves the sublist of matching assets unchanged). -/
theorem C1_asset_selector (gs ga : String) (l l2 : List Asset) :
    (∀ a, assetMatches gs ga a = true ↔
        (gs.data <:+: a.name.data ∧ ga.data <:+: a.name.data)) ∧
    (∀ a, selectAsset gs ga l = some a → assetMatches gs ga a = true ∧
        ∃ l₁ l₂, l = l₁ ++ a :: l₂ ∧ ∀ b ∈ l₁, assetMatches gs ga b = false) ∧
    (selectAsset gs ga l = none ↔ ∀ a ∈ l, assetMatches gs ga a = false) ∧
    (l.filter (assetMatches gs ga) = l2.filter (assetMatches gs ga) →
        selectAsset gs ga l = selectAsset gs ga l2) ∧
    (∀ (env : Env) (repo : String), env.goos = gs → env.goarch = ga →
        env.release repo = StepOutcome.ok l →
        selectAsset gs ga l = none → fetchApp env repo = none) := by
  refine ⟨?_, selectAsset_some gs ga l, selectAsset_none_iff gs ga l, ?_, ?_⟩
  · intro a
    rw [assetMatches, Bool.and_eq_true, goContains_iff_infix, goContains_iff_infix]
  · intro hf
    rw [selectAsset_eq_head_filter, selectAsset_eq_head_filter, hf]
  · intro env repo hgs hga hrel hnone
    cases hri : env.repoInfo repo <;> simp [fetchApp, hri, hrel, hgs, hga, hnone]

/-- Claim C1 witness: on a concrete list the selector picks the single
matching asset, and moving the non-matching assets around leaves the
selection unchanged. -/
theorem C1_witness :
    selectAsset "linux" "amd64" [c1n1, c1a, c1n2] =
      selectAsset "linux" "amd64" [c1n2, c1a, c1n1] ∧
    selectAsset "linux" "amd64" [c1n1, c1a, c1n2] = some c1a :=
  ⟨(C1_asset_selector "linux" "amd64" [c1n1, c1a, c1n2] [c1n2, c1a, c1n1]).2.2.2.1
      (by decide),
    by decide⟩

/-- Claim C2: the output filename is a pure function of the download
URL's base name — the base name truncated at the first occurrence of
the substring "-v"; base name "myapp-v1.2.0-linux-amd64" yields
application name "myapp"; when the base name contains no "-v" the
asset is reported as an error and no file is written. -/
theorem C2_filename_derivation :
    (∀ u₁ u₂ : String, goBase u₁ = goBase u₂ → deriveAppName u₁ = deriveAppName u₂) ∧
    (∀ url name : String, deriveAppName url = some name →
        ∃ i, name = String.mk ((goBase url).data.take i) ∧
          "-v".data <+: (goBase url).data.drop i ∧
          ∀ j, j < i → ¬ ("-v".data <+: (goBase url).data.drop j)) ∧
    (∀ url : String, deriveAppName url = none ↔
        ∀ j, ¬ ("-v".data <+: (goBase url).data.drop j)) ∧
    deriveAppName "https://host/p/myapp-v1.2.0-linux-amd64" = some "myapp" ∧
    (∀ (env : Env) (url : String) (st : Nat) (body : String),
        env.download url = HttpResult.response st body →
        deriveAppName url = none →
        downloadAndStore env url = DlResult.invalidFilename (goBase url)) := by
  refine ⟨?_, ?_, ?_, by decide, ?_⟩
  · intro u₁ u₂ h
    simp only [deriveAppName, h]
  · intro url name h
    cases hidx : strIndexAux "-v".data (goBase url).data with
    | none =>
      rw [deriveAppName, if_pos (goIndex_of_none hidx)] at h
      cases h
    | some i =>
      have hg : goIndex (goBase url) "-v" = i := goIndex_of_some hidx
      rw [deriveAppName, hg] at h
      rw [if_neg (by omega)] at h
      obtain ⟨h1, h2⟩ := strIndexAux_some "-v".data (goBase url).data i hidx
      refine ⟨i, ?_, List.isPrefixOf_iff_prefix.mp h1, ?_⟩
      · have : name = String.mk ((goBase url).data.take ((i : Int)).toNat) :=
          (Option.some.inj h).symm
        simpa [Int.toNat_natCast] using this
      · intro j hj hpre
        have := h2 j hj
        rw [List.isPrefixOf_iff_prefix.mpr hpre] at this
        cases this
  · intro url
    cases hidx : strIndexAux "-v".data (goBase url).data with
    | none =>
      rw [deriveAppName, if_pos (goIndex_of_none hidx)]
      simp only [true_iff]
      intro j hpre
      have := (strIndexAux_none_iff "-v".data (by decide) (goBase url).data).mp hidx j
      rw [List.isPrefixOf_iff_prefix.mpr hpre] at this
      cases this
    | some i =>
      have hg : goIndex (goBase url) "-v" = i := goIndex_of_some hidx
      rw [deriveAppName, hg, if_neg (by omega)]
      simp only [reduceCtorEq, false_iff, not_forall]
      obtain ⟨h1, _⟩ := strIndexAux_some "-v".data (goBase url).data i hidx
      exact ⟨i, by simp [List.isPrefixOf_iff_prefix.mp h1]⟩
  · intro env url st body hd hn
    by_cases hi : goIndex (goBase url) "-v" = -1
    · simp [downloadAndStore, hd, storeBody, hi]
    · rw [deriveAppName, if_neg hi] at hn
      cases hn

/-- Claim C2 witness: two URLs with the same base name derive the same
application name, and the derivation truncates before the version
marker. -/
theorem C2_witness :
    deriveAppName "x/tool-v1" = deriveAppName "y/tool-v1" ∧
    deriveAppName "x/tool-v1" = some "tool" :=
  ⟨C2_filename_derivation.1 "x/tool-v1" "y/tool-v1" (by decide), by decide⟩

/-- Claim C8 counterexample: `c8assets` has two assets matching both
substrings (an ambiguous match, `countP ≠ 1`), yet the selector still
selects one, so an `AvailableApplication` entry is added — refuting
"no entry is added when the match is ambiguous". -/
theorem C8_counterexample :
    ¬ ((List.countP (fun a => assetMatches "linux" "amd64" a) c8assets ≠ 1) →
        selectAsset "linux" "amd64" c8assets = none) := by decide

/-- Claim C8 (amended): an `AvailableApplication` entry exists for a
reference iff at least one of its release assets matches both the OS
and architecture substrings; the first matching asset wins and the
remaining assets are ignored, so at most one entry is added per
reference even when several assets match. -/
theorem C8_amended (gs ga : String) (l : List Asset) :
    (selectAsset gs ga l = none ↔ ∀ a ∈ l, assetMatches gs ga a = false) ∧
    (∀ a, selectAsset gs ga l = some a → assetMatches gs ga a = true ∧
        ∃ l₁ l₂, l = l₁ ++ a :: l₂ ∧ ∀ b ∈ l₁, assetMatches gs ga b = false) ∧
    (∀ (env : Env) (repo desc : String), env.goos = gs → env.goarch = ga →
        env.repoInfo repo = StepOutcome.ok desc → env.release repo = StepOutcome.ok l →
        fetchApp env repo =
          (selectAsset gs ga l).map (fun a => AppInfo.mk a.name desc a.browserDownloadUrl)) := by
  refine ⟨selectAsset_none_iff gs ga l, selectAsset_some gs ga l, ?_⟩
  intro env repo desc hgs hga hri hrel
  cases hsel : selectAsset gs ga l <;>
    simp [fetchApp, hri, hrel, hgs, hga, hsel]

/-- Claim C8 witness: the ambiguous reference of `envC8` yields exactly
the entry built from the first matching asset. -/
theorem C8_witness :
    fetchApp envC8 "acme/two" =
      (selectAsset "linux" "amd64" c8assets).map
        (fun a => AppInfo.mk a.name "d" a.browserDownloadUrl) ∧
    (selectAsset "linux" "amd64" c8assets).map
        (fun a => AppInfo.mk a.name "d" a.browserDownloadUrl) =
      some ⟨"a-linux-amd64", "d", "u1"⟩ :=
  ⟨(C8_amended "linux" "amd64" c8assets).2.2 envC8 "acme/two" "d" rfl rfl
      (by decide) (by decide),
    by decide⟩

/-- Claim C3: the download phase runs if and only if the line read from
standard input, after trimming surrounding whitespace and lowercasing,
is exactly "yes"; inputs such as "y", "Yes please" or the empty string
skip downloading (while " YES " confirms). -/
theorem C3_confirmation_gate (env : Env) (data home response : String)
    (h1 : env.readReposList = Except.ok data)
    (h2 : env.currentUser = Except.ok home)
    (h3 : env.mkdirOk = true)
    (h4 : env.readInput = Except.ok response) :
    (goToLower (goTrimSpace response) = "yes" →
        mainRun env = RunResult.completed
          ⟨availableApps env data, true,
            runDownloads env (availableApps env data), mainPathStep env home⟩) ∧
    (goToLower (goTrimSpace response) ≠ "yes" →
        mainRun env = RunResult.completed
          ⟨availableApps env data, false, [], mainPathStep env home⟩) ∧
    goToLower (goTrimSpace " YES \n") = "yes" ∧
    goToLower (goTrimSpace "y") ≠ "yes" ∧
    goToLower (goTrimSpace "Yes please") ≠ "yes" ∧
    goToLower (goTrimSpace "") ≠ "yes" := by
  refine ⟨?_, ?_, by decide, by decide, by decide, by decide⟩
  · intro hyes
    simp [mainRun, h1, h2, h3, h4, hyes]
  · intro hno
    simp [mainRun, h1, h2, h3, h4, hno]

/-- Claim C3 witness: the end-to-end environment confirmed with
" YES \n" downloads its single matching application. -/
theorem C3_witness :
    mainRun envC3 = RunResult.completed
      ⟨[⟨"tool-v2.0.0-linux-amd64", "a tool", "https://e/tool-v2.0.0-linux-amd64"⟩],
        true, [DlResult.stored "tool" "bin"],
        PathResult.appended ".bashrc" (exportLine "/home/u/.donut-utils")⟩ := by
  rw [(C3_confirmation_gate envC3 "acme/tool" "/home/u" " YES \n" rfl rfl rfl rfl).1
    (by decide)]
  decide

/-- Claim C4: any of the four per-request failure modes (transport
error, non-200 status, body-read error, JSON-decode error) on either
metadata request causes only that reference to be skipped; the loop
continues with the other references and the failure is never fatal to
the run. -/
theorem C4_fetch_failure_isolated (env : Env) (r : String) (pre post : List String)
    (hr : goTrimSpace r = r) (hne : r ≠ "")
    (hfail : (env.repoInfo r).failed = true ∨ (env.release r).failed = true) :
    fetchApp env r = none ∧
    fetchApps env (pre ++ r :: post) = fetchApps env pre ++ fetchApps env post ∧
    (∀ data home response : String, env.readReposList = Except.ok data →
        env.currentUser = Except.ok home → env.mkdirOk = true →
        env.readInput = Except.ok response → (mainRun env).isFatal = false) := by
  have hnone : fetchApp env r = none := by
    cases hri : env.repoInfo r with
    | ok desc =>
      cases hrel : env.release r with
      | ok assets =>
        exfalso
        rcases hfail with h | h
        · rw [hri] at h; exact absurd h (by simp [StepOutcome.failed])
        · rw [hrel] at h; exact absurd h (by simp [StepOutcome.failed])
      | httpError m => simp [fetchApp, hri, hrel]
      | badStatus c => simp [fetchApp, hri, hrel]
      | readError m => simp [fetchApp, hri, hrel]
      | decodeError m => simp [fetchApp, hri, hrel]
    | httpError m => simp [fetchApp, hri]
    | badStatus c => simp [fetchApp, hri]
    | readError m => simp [fetchApp, hri]
    | decodeError m => simp [fetchApp, hri]
  refine ⟨hnone, ?_, ?_⟩
  · simp [fetchApps, List.filterMap_append, List.filterMap_cons, hr, hne, hnone]
  · intro data home response h1 h2 h3 h4
    simp [mainRun, h1, h2, h3, h4, RunResult.isFatal]

/-- Claim C4 witness: `envC4`'s middle reference answers HTTP 404 on
the repository-info request; it contributes nothing, its neighbours
are both processed, and the run is not fatal. -/
theorem C4_witness :
    fetchApp envC4 "bad/repo" = none ∧
    fetchApps envC4 ["good/one", "bad/repo", "good/two"] =
      fetchApps envC4 ["good/one"] ++ fetchApps envC4 ["good/two"] ∧
    (mainRun envC4).isFatal = false := by
  have h := C4_fetch_failure_isolated envC4 "bad/repo" ["good/one"] ["good/two"]
    (by decide) (by decide) (Or.inl (by decide))
  exact ⟨h.1, h.2.1,
    h.2.2 "good/one\nbad/repo\ngood/two" "/home/u" "no\n" rfl rfl rfl rfl⟩

/-- Claim C5 counterexample: `envC5`'s download endpoint answers
HTTP 404, yet `downloadAndStore` writes the error page to the file —
refuting "an HTTP non-200 response is treated as a recoverable
per-item failure ... no file is written for that asset". -/
theorem C5_counterexample :
    ¬ (envC5.download c5url = HttpResult.response 404 "Not Found" →
        fileWritten (downloadAndStore envC5 c5url) = false) := by decide

/-- Claim C5 (amended): in the downloader only a transport error on the
download request is detected as a per-item failure (message printed,
no file written, loop continues to the next asset); a non-200 HTTP
response is not checked — the status code is ignored and the response
body is written to the file as on success. -/
theorem C5_amended_download_errors (env : Env) (url : String) :
    (∀ msg, env.download url = HttpResult.transportError msg →
        downloadAndStore env url = DlResult.failedDownload ∧
        fileWritten (downloadAndStore env url) = false) ∧
    (∀ pre post : List AppInfo,
        runDownloads env (pre ++ post) = runDownloads env pre ++ runDownloads env post) ∧
    (∀ (st : Nat) (body : String), env.download url = HttpResult.response st body →
        downloadAndStore env url = storeBody env url body) := by
  refine ⟨?_, ?_, ?_⟩
  · intro msg h
    simp [downloadAndStore, h, fileWritten]
  · intro pre post
    simp [runDownloads]
  · intro st body h
    simp [downloadAndStore, h]

/-- Claim C5 witness: a transport error yields the no-file per-item
failure. -/
theorem C5_witness :
    downloadAndStore envC5w c5url = DlResult.failedDownload ∧
    fileWritten (downloadAndStore envC5w c5url) = false :=
  (C5_amended_download_errors envC5w c5url).1 "boom" rfl

/-- Claim C6 counterexample: in `envC6` the home-directory resolution
inside the PATH-registration step fails, yet the run is not aborted —
refuting "every failure to resolve the current user's home directory
is in this fatal tier". -/
theorem C6_counterexample :
    ¬ (isErr envC6.currentUser2 = true → (mainRun envC6).isFatal = true) := by decide

/-- Claim C6 (amended): exactly four failures abort the entire run —
unreadable repository list file, unresolvable current user in `main`'s
setup, inability to create the download directory, and failure reading
the confirmation line; the current-user resolution failure inside the
PATH-registration step is recoverable: the step reports it and is
skipped while the run still completes. -/
theorem C6_amended_fatal_tier (env : Env) :
    ((mainRun env).isFatal = true ↔
      (isErr env.readReposList = true ∨ isErr env.currentUser = true ∨
        env.mkdirOk = false ∨ isErr env.readInput = true)) ∧
    (∀ r : RunEnd, mainRun env = RunResult.completed r →
        isErr env.currentUser2 = true → env.goos ≠ "windows" →
        shellProfile env.shellEnv ≠ none →
        r.pathStep = PathResult.failedUser) := by
  constructor
  · cases h1 : env.readReposList with
    | error e => simp [mainRun, h1, RunResult.isFatal, isErr]
    | ok data =>
      cases h2 : env.currentUser with
      | error e => simp [mainRun, h1, h2, RunResult.isFatal, isErr]
      | ok home =>
        cases h3 : env.mkdirOk with
        | false => simp [mainRun, h1, h2, h3, RunResult.isFatal, isErr]
        | true =>
          cases h4 : env.readInput with
          | error e => simp [mainRun, h1, h2, h3, h4, RunResult.isFatal, isErr]
          | ok response => simp [mainRun, h1, h2, h3, h4, RunResult.isFatal, isErr]
  · intro r hr hu hw hs
    cases h1 : env.readReposList with
    | error e => simp [mainRun, h1] at hr
    | ok data =>
      cases h2 : env.currentUser with
      | error e => simp [mainRun, h1, h2] at hr
      | ok home =>
        cases h3 : env.mkdirOk with
        | false => simp [mainRun, h1, h2, h3] at hr
        | true =>
          cases h4 : env.readInput with
          | error e => simp [mainRun, h1, h2, h3, h4] at hr
          | ok response =>
            simp only [mainRun, h1, h2, h3, h4, if_true, RunResult.completed.injEq] at hr
            obtain rfl := hr.symm
            show mainPathStep env home = PathResult.failedUser
            rw [mainPathStep, if_neg hw]
            rcases hsp : shellProfile env.shellEnv with _ | rc
            · exact absurd hsp hs
            · cases hcu : env.currentUser2 with
              | error e2 => simp [addToPath, hsp, hcu]
              | ok h2' => simp [isErr, hcu] at hu

/-- Claim C6 witness: `envC6` completes with its PATH step reporting
the failed user resolution. -/
theorem C6_witness :
    mainRun envC6 = RunResult.completed rC6 ∧
    rC6.pathStep = PathResult.failedUser :=
  ⟨by decide,
    (C6_amended_fatal_tier envC6).2 rC6 (by decide) (by decide) (by decide) (by decide)⟩

/-- Claim C7: when `SHELL` selects a supported shell, each run of the
PATH-registration step appends exactly the line
"\nexport PATH=$PATH:dir" to the selected profile file; there is no
deduplication, so running the step twice appends the line twice, and
an unsupported shell yields printed instructions with no file
modification. -/
theorem C7_path_registration (env : Env) (dir home : String)
    (huser : env.currentUser2 = Except.ok home)
    (hopen : env.openProfileOk = true)
    (hwrite : env.writeProfileOk = true) :
    (∀ rc, shellProfile env.shellEnv = some rc →
        addToPath env dir =
          PathResult.appended rc (env.profileContents ++ exportLine dir) ∧
        addToPathTwice env dir =
          PathResult.appended rc ((env.profileContents ++ exportLine dir) ++ exportLine dir)) ∧
    (shellProfile env.shellEnv = none →
        addToPath env dir = PathResult.unsupportedShell dir) := by
  constructor
  · intro rc hrc
    have h1 : addToPath env dir =
        PathResult.appended rc (env.profileContents ++ exportLine dir) := by
      simp [addToPath, hrc, huser, hopen, hwrite]
    refine ⟨h1, ?_⟩
    rw [addToPathTwice, h1]
    simp [addToPath, hrc, huser, hopen, hwrite]
  · intro h
    simp [addToPath, h]

/-- Claim C7 witness: two runs against a bash profile leave two copies
of the export line appended to the original contents. -/
theorem C7_witness :
    addToPath envC7 c7dir =
      PathResult.appended ".bashrc" (envC7.profileContents ++ exportLine c7dir) ∧
    addToPathTwice envC7 c7dir =
      PathResult.appended ".bashrc"
        ((envC7.profileContents ++ exportLine c7dir) ++ exportLine c7dir) :=
  (C7_path_registration envC7 c7dir "/home/u" rfl rfl rfl).1 ".bashrc" (by decide)

/-- Claim C9 evaluated on the code: after the iteration for reference
"a/r" completes, both of its response bodies have been opened and
neither has been closed (their closes sit on the defer stack, which Go
runs only when `main` returns); with a second reference "b/r" whose
repository-info request returns HTTP 404, the full event list of the
run shows that body 2 is never closed at all, because the non-200
`continue` executes before the `defer` statement registers the
close. -/
theorem C9_body_close_deferred :
    (fetchLoop envC9 ["a/r"]).events = [Ev.openBody 0, Ev.openBody 1] ∧
    (fetchLoop envC9 ["a/r"]).defers = [1, 0] ∧
    mainBodyEvents envC9 ["a/r", "b/r"] =
      [Ev.openBody 0, Ev.openBody 1, Ev.openBody 2,
        Ev.closeBody 1, Ev.closeBody 0] := by decide

/-- Claim C10: once the confirmation line has been read, `main` always
completes with the PATH step executed, whatever the answer and however
many applications are available — declining the download does not skip
PATH registration. -/
theorem C10_path_step_always (env : Env) (data home response : String)
    (h1 : env.readReposList = Except.ok data)
    (h2 : env.currentUser = Except.ok home)
    (h3 : env.mkdirOk = true)
    (h4 : env.readInput = Except.ok response) :
    mainRun env = RunResult.completed
      ⟨availableApps env data,
        decide (goToLower (goTrimSpace response) = "yes"),
        (if goToLower (goTrimSpace response) = "yes"
          then runDownloads env (availableApps env data) else []),
        mainPathStep env home⟩ := by
  simp [mainRun, h1, h2, h3, h4]

/-- Claim C10 witness: with an empty available list and the answer
"no", the run still completes and still appends the export line. -/
theorem C10_witness :
    mainRun envC10 = RunResult.completed
      ⟨[], false, [], PathResult.appended ".bashrc" (exportLine "/home/u/.donut-utils")⟩ := by
  rw [C10_path_step_always envC10 "" "/home/u" "no\n" rfl rfl rfl rfl]
  decide

end DonutUtils
